import Mathlib

set_option maxHeartbeats 1000000

/-!
Verification of `main.py` of the hukumonline-tips-scraping repository.

The HTML document model is a tree of element and text nodes.  Every node
carries a numeric id `nid`; the id plays the role of the object identity of a
BeautifulSoup node, which is needed because `extract_article_content` mutates
the tree in place (`decompose`) while holding references into it.  Fetching is
modelled by an oracle `String → Option Node`: `none` is a request failure
(network error or non-2xx status, i.e. a `RequestException`), `some doc` is a
successfully fetched and parsed document (the `html.parser` backend never
raises on parse).
-/

namespace Scraper

inductive Node where
  | elem (nid : Nat) (tag : String) (attrs : List (String × String)) (children : List Node)
  | text (nid : Nat) (s : String)

def nidOf : Node → Nat
  | .elem i _ _ _ => i
  | .text i _ => i

def tagOf : Node → String
  | .elem _ t _ _ => t
  | .text _ _ => ""

def isElem : Node → Bool
  | .elem _ _ _ _ => true
  | .text _ _ => false

/-- Attribute lookup; text nodes have no attributes (`tag.get(key)`). -/
def getAttr : Node → String → Option String
  | .elem _ _ attrs _, k => (attrs.find? (fun p => p.1 = k)).map (·.2)
  | .text _ _, _ => none

/-- List infix test on characters, used to model Python's `in` on strings. -/
def listLeadsWith : List Char → List Char → Bool
  | [], _ => true
  | _ :: _, [] => false
  | a :: as, b :: bs => a = b && listLeadsWith as bs

def listHasInfix (p : List Char) : List Char → Bool
  | [] => p.isEmpty
  | b :: bs => listLeadsWith p (b :: bs) || listHasInfix p bs

/-- Python `pat in s` (substring containment). -/
def strContains (s pat : String) : Bool :=
  listHasInfix pat.toList s.toList

/-- Drop everything up to and including the first occurrence of `pat`;
`none` when `pat` does not occur.  Models `s.split(pat, 1)[1]`. -/
def afterFirstAux (p : List Char) : List Char → Option (List Char)
  | [] => if p.isEmpty then some [] else none
  | b :: bs =>
    if listLeadsWith p (b :: bs) then some ((b :: bs).drop p.length)
    else afterFirstAux p bs

def afterFirst (pat s : String) : Option String :=
  (afterFirstAux pat.toList s.toList).map (fun l => ⟨l⟩)

/-- Everything before the first occurrence of `pat`; `none` when absent.
Models `s.split(pat, 1)[0]` guarded by `pat in s`. -/
def beforeFirstAux (p : List Char) : List Char → Option (List Char)
  | [] => if p.isEmpty then some [] else none
  | b :: bs =>
    if listLeadsWith p (b :: bs) then some []
    else (beforeFirstAux p bs).map (fun l => b :: l)

def beforeFirst (pat s : String) : Option String :=
  (beforeFirstAux pat.toList s.toList).map (fun l => ⟨l⟩)

/-- Remove the first occurrence of `pat`; models `s.replace(pat, "", 1)`. -/
def removeFirstAux (p : List Char) : List Char → List Char
  | [] => []
  | b :: bs =>
    if listLeadsWith p (b :: bs) then (b :: bs).drop p.length
    else b :: removeFirstAux p bs

def removeFirst (pat s : String) : String :=
  ⟨removeFirstAux pat.toList s.toList⟩

/-- Python `s[:n]` on characters. -/
def takeChars (n : Nat) (s : String) : String :=
  ⟨s.toList.take n⟩

/-- `s.startswith(pat)`. -/
def strStarts (s pat : String) : Bool :=
  listLeadsWith pat.toList s.toList

def isPyWs (c : Char) : Bool :=
  c = ' ' || c = '\t' || c = '\n' || c = '\r'

/-- Python `s.strip()`. -/
def pyStrip (s : String) : String :=
  ⟨((s.toList.dropWhile isPyWs).reverse.dropWhile isPyWs).reverse⟩

/-- Split on spaces, used for multi-valued attributes. -/
def splitWsAux : List Char → List Char → List String
  | [], cur => [⟨cur.reverse⟩]
  | c :: rest, cur =>
    if c = ' ' then (⟨cur.reverse⟩ : String) :: splitWsAux rest []
    else splitWsAux rest (c :: cur)

def splitWs (s : String) : List String :=
  splitWsAux s.toList []

/-- Multi-valued `class` attribute, split on spaces as BeautifulSoup does. -/
def classList (n : Node) : List String :=
  match getAttr n "class" with
  | none => []
  | some s => (splitWs s).filter (fun c => c ≠ "")

def hasClass (n : Node) (tok : String) : Bool :=
  (classList n).contains tok

/-- Multi-valued `rel` attribute. -/
def relList (n : Node) : List String :=
  match getAttr n "rel" with
  | none => []
  | some s => (splitWs s).filter (fun c => c ≠ "")

/-- A `class_=lambda c: ...` match: the lambda is applied to each class value
(the lambdas in the source are all falsy on a missing class attribute). -/
def anyClass (f : String → Bool) (n : Node) : Bool :=
  (classList n).any f

mutual
def textStrings : Node → List String
  | .text _ s => [s]
  | .elem _ _ _ cs => textStringsList cs
def textStringsList : List Node → List String
  | [] => []
  | c :: cs => textStrings c ++ textStringsList cs
end

/-- `get_text()` — concatenation of all descendant strings. -/
def getTextRaw (n : Node) : String :=
  String.intercalate "" (textStrings n)

/-- `get_text(separator=" ", strip=True)`. -/
def getTextSep (n : Node) : String :=
  String.intercalate " " (((textStrings n).map pyStrip).filter (fun s => s ≠ ""))

/-- `get_text(strip=True)` (default empty separator). -/
def getTextStrip (n : Node) : String :=
  String.intercalate "" (((textStrings n).map pyStrip).filter (fun s => s ≠ ""))

mutual
/-- `find(...)`: first matching node among the descendants, document order. -/
def findFirst (p : Node → Bool) : Node → Option Node
  | .text _ _ => none
  | .elem _ _ _ cs => findFirstList p cs
def findFirstList (p : Node → Bool) : List Node → Option Node
  | [] => none
  | c :: cs =>
    if p c then some c
    else
      match findFirst p c with
      | some r => some r
      | none => findFirstList p cs
end

mutual
/-- `find_all(...)`: all matching descendants in document (preorder) order. -/
def findAll (p : Node → Bool) : Node → List Node
  | .text _ _ => []
  | .elem _ _ _ cs => findAllList p cs
def findAllList (p : Node → Bool) : List Node → List Node
  | [] => []
  | c :: cs => (if p c then [c] else []) ++ findAll p c ++ findAllList p cs
end

def noiseTags : List String := ["script", "style", "iframe"]

/-- Whether a node is a script/style/iframe element. -/
def isNoise : Node → Bool
  | .text _ _ => false
  | .elem _ t _ _ => noiseTags.contains t

mutual
/-- Effect of `for e in x.find_all(["script","style","iframe"]): e.decompose()`
on the subtree `x`: every script/style/iframe descendant is removed. -/
def stripNoise : Node → Node
  | .text i s => .text i s
  | .elem i t a cs => .elem i t a (stripNoiseList cs)
def stripNoiseList : List Node → List Node
  | [] => []
  | c :: rest =>
    if isNoise c then stripNoiseList rest
    else stripNoise c :: stripNoiseList rest
end

mutual
/-- The current subtree rooted at the node with id `k` (reference lookup). -/
def subtreeById (k : Nat) : Node → Option Node
  | .text i s => if i = k then some (.text i s) else none
  | .elem i t a cs =>
    if i = k then some (.elem i t a cs) else subtreeByIdList k cs
def subtreeByIdList (k : Nat) : List Node → Option Node
  | [] => none
  | c :: cs =>
    match subtreeById k c with
    | some r => some r
    | none => subtreeByIdList k cs
end

mutual
/-- In-place mutation: replace the subtree with id `k` by its noise-stripped
form, leaving the rest of the tree unchanged. -/
def stripNoiseAt (k : Nat) : Node → Node
  | .text i s => .text i s
  | .elem i t a cs =>
    if i = k then .elem i t a (stripNoiseList cs)
    else .elem i t a (stripNoiseAtList k cs)
def stripNoiseAtList (k : Nat) : List Node → List Node
  | [] => []
  | c :: cs => stripNoiseAt k c :: stripNoiseAtList k cs
end

mutual
/-- The chain self, parent, grandparent, …, root of the node with id `k`
(models repeated `.parent` steps). -/
def spineTo (k : Nat) : Node → Option (List Node)
  | .text i s => if i = k then some [.text i s] else none
  | .elem i t a cs =>
    if i = k then some [.elem i t a cs]
    else
      match spineToList k cs with
      | some l => some (l ++ [.elem i t a cs])
      | none => none
def spineToList (k : Nat) : List Node → Option (List Node)
  | [] => none
  | c :: cs =>
    match spineTo k c with
    | some l => some l
    | none => spineToList k cs
end

mutual
/-- No script/style/iframe element anywhere in the tree. -/
def noNoise : Node → Bool
  | .text _ _ => true
  | .elem _ t _ cs => !(noiseTags.contains t) && noNoiseList cs
def noNoiseList : List Node → Bool
  | [] => true
  | c :: cs => noNoise c && noNoiseList cs
end

/-- Python string truthiness of an optional string: `None` and `""` are falsy. -/
def tstr : Option String → Bool
  | none => false
  | some s => s != ""

/-- The lambda `c and "css-" in c` applied to one class value. -/
def cssTok (c : String) : Bool :=
  c != "" && strContains c "css-"

/-- `find("div", id="content", class_=lambda c: c and "css-" in c)` (l. 191). -/
def contentAreaPred (n : Node) : Bool :=
  tagOf n == "div" && getAttr n "id" == some "content" && anyClass cssTok n

def findContentArea (soup : Node) : Option Node :=
  findFirst contentAreaPred soup

/-- PERTANYAAN extraction (l. 199-223). -/
def questionPhase (ca : Node) : Option String :=
  let sec :=
    match findFirst (fun n => tagOf n == "div" &&
        anyClass (fun c => cssTok c && strContains c "qgav68") n) ca with
    | some s => some s
    | none => findFirst (fun n => tagOf n == "div" && anyClass cssTok n) ca
  match sec with
  | none => none
  | some sec =>
    let qdiv :=
      match findFirst (fun n => tagOf n == "div" &&
          anyClass (fun c => cssTok c && strContains c "c816ma") n) sec with
      | some d => some d
      | none => findFirst (fun n => tagOf n == "div" && anyClass cssTok n) sec
    qdiv.map getTextSep

/-- INTISARI JAWABAN, first tier: section by class token `css-uf51zq`,
nested `article`, content leaf by class token `c816ma` (l. 227-252). -/
def summaryTierA (ca : Node) : Option String :=
  match findFirst (fun n => tagOf n == "div" &&
      anyClass (fun c => c != "" && strContains c "css-uf51zq") n) ca with
  | none => none
  | some sec =>
    match findFirst (fun n => tagOf n == "article" && anyClass cssTok n) sec with
    | none => none
    | some art =>
      (findFirst (fun n => tagOf n == "div" &&
          anyClass (fun c => c != "" && strContains c "c816ma") n) art).map getTextSep

/-- Second tier: anchor `id="INTISARI_JAWABAN"`, climb ancestors to the
`css-uf51zq` div, then `article` → `c816ma` leaf (l. 255-281). -/
def summaryTierB (soup : Node) : Option String :=
  match findFirst (fun n => getAttr n "id" == some "INTISARI_JAWABAN") soup with
  | none => none
  | some hd =>
    match spineTo (nidOf hd) soup with
    | none => none
    | some spine =>
      match spine.find? (fun n => tagOf n == "div" &&
          !(classList n).isEmpty && hasClass n "css-uf51zq") with
      | none => none
      | some pdiv =>
        match findFirst (fun n => tagOf n == "article") pdiv with
        | none => none
        | some art =>
          (findFirst (fun n => tagOf n == "div" &&
              anyClass (fun c => c != "" && strContains c "c816ma") n) art).map getTextSep

/-- Third tier: heading whose text contains "INTISARI JAWABAN", climb to the
nearest div, then `article` → `c816ma` leaf (l. 283-310). -/
def summaryTierC (soup : Node) : Option String :=
  match findFirst (fun n => (tagOf n == "h2" || tagOf n == "h3") &&
      strContains (getTextRaw n) "INTISARI JAWABAN") soup with
  | none => none
  | some hd =>
    match spineTo (nidOf hd) soup with
    | none => none
    | some spine =>
      match (spine.drop 1).find? (fun n => tagOf n == "div") with
      | none => none
      | some pdiv =>
        match findFirst (fun n => tagOf n == "article") pdiv with
        | none => none
        | some art =>
          (findFirst (fun n => tagOf n == "div" &&
              anyClass (fun c => c != "" && strContains c "c816ma") n) art).map getTextSep

/-- The three summary tiers chained on Python truthiness: a later tier runs
only while the current value is falsy, and a tier that does not reach its
innermost assignment leaves the previous value in place. -/
def summaryPhase (soup ca : Node) : Option String :=
  let s1 := summaryTierA ca
  let s2 := if tstr s1 then s1 else
    match summaryTierB soup with
    | some t => some t
    | none => s1
  if tstr s2 then s2 else
    match summaryTierC soup with
    | some t => some t
    | none => s2

/-- ULASAN LENGKAP section selection (l. 312-341): by class token, else by
heading text with an ancestor climb, else the heading's nearest div ancestor. -/
def ulasanSection (soup ca : Node) : Option Node :=
  match findFirst (fun n => tagOf n == "div" &&
      anyClass (fun c => cssTok c && strContains c "103zlhi") n) ca with
  | some s => some s
  | none =>
    match findFirst (fun n => (tagOf n == "h2" || tagOf n == "h3") &&
        strContains (getTextRaw n) "ULASAN LENGKAP") soup with
    | none => none
    | some hd =>
      match spineTo (nidOf hd) soup with
      | none => none
      | some spine =>
        match (spine.drop 1).find? (fun n => tagOf n == "div" &&
            !(classList n).isEmpty && anyClass (fun c => strContains c "css-103zlhi") n) with
        | some p => some p
        | none => spine.find? (fun n => tagOf n == "div")

/-- Main-content extraction (l. 343-386).  Returns the body value together
with the document after the in-place `decompose` mutations.  Each collected
leaf text is the text of that leaf with script/style/iframe removed; the
length threshold is 50 characters.  When no leaf qualifies, the whole section
is stripped and its text used, with one occurrence of "ULASAN LENGKAP"
removed. -/
def bodyPhase (soup ca : Node) : Option String × Node :=
  match ulasanSection soup ca with
  | none => (none, soup)
  | some sec =>
    let divs0 := findAll (fun n => tagOf n == "div" &&
        anyClass (fun c => cssTok c && strContains c "c816ma") n) sec
    let divs := if divs0.isEmpty then
        findAll (fun n => (tagOf n == "div" || tagOf n == "article") && anyClass cssTok n) sec
      else divs0
    let texts := divs.filterMap (fun d =>
        let t := getTextSep (stripNoise d)
        if t ≠ "" ∧ 50 < t.length then some t else none)
    let doc1 := divs.foldl (fun dc d => stripNoiseAt (nidOf d) dc) soup
    if texts.isEmpty then
      let t := pyStrip (removeFirst "ULASAN LENGKAP" (getTextSep (stripNoise sec)))
      (some t, stripNoiseAt (nidOf sec) doc1)
    else (some (String.intercalate " " texts), doc1)

/-- Cross-field backfill (l. 388-412) on (summary, body). -/
def backfill (s b : Option String) : Option String × Option String :=
  if tstr s && !tstr b then
    (s, some ("INTISARI JAWABAN: " ++ s.getD ""))
  else if tstr b && !tstr s && strContains (b.getD "") "INTISARI JAWABAN" then
    match afterFirst "INTISARI JAWABAN:" (b.getD "") with
    | none => (s, b)
    | some rest =>
      let sp := pyStrip rest
      match beforeFirst "ULASAN LENGKAP:" sp with
      | some pre => (some (pyStrip pre), b)
      | none => (some (if 500 < sp.length then takeChars 500 sp else sp), b)
  else (s, b)

/-- The fallback loop over the generic `css-` divs of the content area
(l. 452-466): each div is looked up in the current tree (mutations from
earlier iterations are visible), skipped when its raw text contains the
already-extracted question or summary, otherwise stripped in place and its
text kept when longer than 100 characters. -/
def lastResortLoop (q s : Option String) : List Nat → Node → List String → Node × List String
  | [], doc, acc => (doc, acc)
  | k :: ks, doc, acc =>
    match subtreeById k doc with
    | none => lastResortLoop q s ks doc acc
    | some cur =>
      if tstr q && strContains (getTextRaw cur) (q.getD "") then
        lastResortLoop q s ks doc acc
      else if tstr s && strContains (getTextRaw cur) (s.getD "") then
        lastResortLoop q s ks doc acc
      else
        let t := getTextSep (stripNoise cur)
        lastResortLoop q s ks (stripNoiseAt k doc)
          (acc ++ (if t ≠ "" ∧ 100 < t.length then [t] else []))

/-- The `main_content_div` search of l. 422-433: the `ULASAN_LENGKAP` anchor's
ancestors are climbed, stopping at a `body` element, looking for a div whose
class list contains the exact token `css-103zlhi`. -/
def lastResortMainDiv (doc : Node) : Option Node :=
  match findFirst (fun n => getAttr n "id" == some "ULASAN_LENGKAP") doc with
  | none => none
  | some hd =>
    match spineTo (nidOf hd) doc with
    | none => none
    | some spine =>
      ((spine.drop 1).takeWhile (fun n => tagOf n != "body")).find?
        (fun n => tagOf n == "div" && hasClass n "css-103zlhi")

/-- Last-resort body recovery (l. 414-472), run on the current (possibly
already mutated) document.  `b` is the incoming falsy body value, kept when
the recovery also fails. -/
def lastResort (q s b : Option String) (doc : Node) (caNid : Nat) : Option String × Node :=
  match lastResortMainDiv doc with
  | some d => (some (getTextSep (stripNoise d)), stripNoiseAt (nidOf d) doc)
  | none =>
    match subtreeById caNid doc with
    | none => (b, doc)
    | some ca =>
      let ids := (findAll (fun n => tagOf n == "div" && anyClass cssTok n) ca).map nidOf
      let r := lastResortLoop q s ids doc []
      if r.2.isEmpty then (b, r.1) else (some (String.intercalate " " r.2), r.1)

/-- `extract_article_content` (l. 171-479) as a function from the article
document to the `(question, summary, body)` triple together with the document
after the extraction's in-place mutations. -/
def extract_article_content (soup : Node) :
    (Option String × Option String × Option String) × Node :=
  match findContentArea soup with
  | none => ((none, none, none), soup)
  | some ca =>
    let q := questionPhase ca
    let s := summaryPhase soup ca
    let bd := bodyPhase soup ca
    let sb := backfill s bd.1
    if tstr sb.2 then ((q, sb.1, sb.2), bd.2)
    else
      let lr := lastResort q sb.1 sb.2 bd.2 (nidOf ca)
      ((q, sb.1, lr.1), lr.2)

/-- A point inside the `try` block of `extract_article_content` at which an
internal error may be raised.  The `except` handler (l. 474-479) catches the
error and the function returns the values the three field variables hold at
that moment. -/
inductive ErrPoint where
  | atRoot
  | afterQuestion
  | afterSummary
  | afterBody
deriving DecidableEq

/-- The triple `extract_article_content` returns when an internal error is
raised at point `p` of its `try` block: the fields assigned before the error
survive into the return statement, the others are still `None`.  When the
content root is absent the function has already returned all-`None` before
any of these points is reached (l. 195-197). -/
def extract_article_content_err (soup : Node) (p : ErrPoint) :
    Option String × Option String × Option String :=
  match findContentArea soup with
  | none => (none, none, none)
  | some ca =>
    match p with
    | .atRoot => (none, none, none)
    | .afterQuestion => (questionPhase ca, none, none)
    | .afterSummary => (questionPhase ca, summaryPhase soup ca, none)
    | .afterBody => (questionPhase ca, summaryPhase soup ca, (bodyPhase soup ca).1)

/-! ## The crawl controller (`scrape_hukumonline_tips`, l. 14-168) -/

def base_url : String := "https://www.hukumonline.com"

def start_url : String := base_url ++ "/klinik/tips/"

/-- One output record (l. 106-112). -/
structure ArticleRecord where
  url : String
  judul : String
  pertanyaan : String
  ringkasan : String
  konten : String
deriving DecidableEq

/-- `x if x else ""` on an optional string (l. 109-110). -/
def optS (o : Option String) : String := o.getD ""

/-- The article anchors: `a.__tips_idx_click` whose href is truthy and starts
with `/klinik/a/` (l. 61-74). -/
def tipsLinkPred (n : Node) : Bool :=
  tagOf n == "a" && hasClass n "__tips_idx_click" &&
    (match getAttr n "href" with
     | some h => h != "" && strStarts h "/klinik/a/"
     | none => false)

/-- Link discovery on a listing page (l. 55-79): links inside the
`div.css-m2i9m0` container when it exists; otherwise a whole-page search, and
`none` — the crawl-terminating signal of l. 66-68 — when that fallback also
finds nothing.  A present but empty container yields `some []` and the crawl
goes on (l. 76-79 only logs a warning). -/
def discoverLinks (soup : Node) : Option (List Node) :=
  match findFirst (fun n => tagOf n == "div" && hasClass n "css-m2i9m0") soup with
  | none =>
    let links := findAll tipsLinkPred soup
    if links.isEmpty then none else some links
  | some container => some (findAll tipsLinkPred container)

/-- Article title from the listing anchor (l. 83-88). -/
def titleOf (link : Node) : String :=
  match findFirst (fun n => tagOf n == "h2" && hasClass n "css-1udxi4r") link with
  | some h => getTextStrip h
  | none => "No Title Found"

/-- Next-page discovery (l. 134-158): the `rel="next"` anchor with class
`__pagination_next_click` inside `ul.css-1gd80ut`, accepted only when its
href is truthy and starts with `/klinik/tips/page/`. -/
def findNext (soup : Node) : Option String :=
  match findFirst (fun n => tagOf n == "ul" && hasClass n "css-1gd80ut") soup with
  | none => none
  | some pag =>
    match findFirst (fun n => tagOf n == "a" && (relList n).contains "next" &&
        hasClass n "__pagination_next_click") pag with
    | none => none
    | some a =>
      match getAttr a "href" with
      | none => none
      | some h =>
        if h == "" then none
        else if strStarts h "/klinik/tips/page/" then some (base_url ++ h)
        else none

/-- The record one discovered link contributes, if any (l. 81-128): skipped
when the href is falsy, when the article fetch fails, or when the extracted
body is falsy; otherwise the record of l. 106-112. -/
def linkRecord (fetch : String → Option Node) (link : Node) : Option ArticleRecord :=
  match getAttr link "href" with
  | none => none
  | some h =>
    if h = "" then none
    else
      let url := base_url ++ h
      match fetch url with
      | none => none
      | some doc =>
        let t := (extract_article_content doc).1
        if tstr t.2.2 then
          some ⟨url, titleOf link, optS t.1, optS t.2.1, (t.2.2).getD ""⟩
        else none

/-- The per-page article loop (l. 81-132), also returning the list of article
URLs passed to `fetch`, in order.  A failed article fetch appends nothing and
the loop continues (l. 123-128). -/
def processLinks (fetch : String → Option Node) :
    List Node → List ArticleRecord → List ArticleRecord × List String
  | [], acc => (acc, [])
  | link :: rest, acc =>
    match getAttr link "href" with
    | none => processLinks fetch rest acc
    | some h =>
      if h = "" then processLinks fetch rest acc
      else
        let url := base_url ++ h
        let acc' :=
          match fetch url with
          | none => acc
          | some doc =>
            let t := (extract_article_content doc).1
            if tstr t.2.2 then
              acc ++ [⟨url, titleOf link, optS t.1, optS t.2.1, (t.2.2).getD ""⟩]
            else acc
        let r := processLinks fetch rest acc'
        (r.1, url :: r.2)

/-- The `while` guard `max_pages is None or page_count < max_pages` (l. 40). -/
def pageCond (maxPages : Option Nat) (pageCount : Nat) : Bool :=
  match maxPages with
  | none => true
  | some m => pageCount < m

/-- The crawl loop (l. 40-166), fuel-indexed so that it is total; the Python
run with `max_pages = m` is the loop with any fuel ≥ m.  Returns the
accumulated records and the trace of every URL passed to `fetch` (listing and
article URLs alike), in order.  A listing-fetch failure (l. 46-48) and a
zero-link page with missing container (l. 66-68) both break out of the loop;
a missing or malformed next-page link ends the loop via `current_url = None`
(l. 134-166). -/
def crawlLoop (fetch : String → Option Node) (maxPages : Option Nat) :
    Nat → Option String → Nat → List ArticleRecord → List ArticleRecord × List String
  | 0, _, _, acc => (acc, [])
  | _ + 1, none, _, acc => (acc, [])
  | fuel + 1, some u, pageCount, acc =>
    if pageCond maxPages pageCount then
      match fetch u with
      | none => (acc, [u])
      | some soup =>
        match discoverLinks soup with
        | none => (acc, [u])
        | some links =>
          let pr := processLinks fetch links acc
          let rest := crawlLoop fetch maxPages fuel (findNext soup) (pageCount + 1) pr.1
          (rest.1, u :: (pr.2 ++ rest.2))
    else (acc, [])

/-- `scrape_hukumonline_tips(max_pages)` with the fetch oracle made explicit. -/
def scrape_hukumonline_tips (fetch : String → Option Node) (maxPages : Option Nat)
    (fuel : Nat) : List ArticleRecord × List String :=
  crawlLoop fetch maxPages fuel (some start_url) 0 []

/-- Modelled from the spec's ordering property, for comparison with the
implementation: the records of a run are the concatenation, over the listing
pages in pagination order, of the per-page records, where a page contributes
its discovered links in document order, each mapped to its record when one is
kept. -/
def specRecords (fetch : String → Option Node) (maxPages : Option Nat) :
    Nat → Option String → Nat → List ArticleRecord
  | 0, _, _ => []
  | _ + 1, none, _ => []
  | fuel + 1, some u, pageCount =>
    if pageCond maxPages pageCount then
      match fetch u with
      | none => []
      | some soup =>
        match discoverLinks soup with
        | none => []
        | some links =>
          links.filterMap (linkRecord fetch) ++
            specRecords fetch maxPages fuel (findNext soup) (pageCount + 1)
    else []

/-! ## Concrete documents and fetch environments used as witnesses -/

def LONG60 : String :=
  "Dasar hukum pemutusan hubungan kerja diatur dalam peraturan perundang-undangan ketenagakerjaan."

/-- An article document with a content root, an ULASAN LENGKAP section and a
content leaf holding a body of more than 50 characters. -/
def article1 : Node :=
  .elem 200 "[document]" [] [
    .elem 201 "div" [("id", "content"), ("class", "css-r")] [
      .elem 202 "div" [("class", "css-103zlhi")] [
        .elem 203 "div" [("class", "css-c816ma")] [.text 204 LONG60]]]]

/-- A listing page with the `css-m2i9m0` container holding one article link
and no pagination control. -/
def listing1 : Node :=
  .elem 100 "[document]" [] [
    .elem 101 "div" [("class", "css-m2i9m0")] [
      .elem 102 "a" [("class", "__tips_idx_click"), ("href", "/klinik/a/x1")] [
        .elem 103 "h2" [("class", "css-1udxi4r")] [.text 104 "Judul Satu"]]]]

def fetch1 : String → Option Node := fun u =>
  if u = start_url then some listing1
  else if u = base_url ++ "/klinik/a/x1" then some article1
  else none

def rec1 : ArticleRecord :=
  ⟨base_url ++ "/klinik/a/x1", "Judul Satu", LONG60, "", LONG60⟩

/-- A fetch oracle on which every request fails. -/
def fetchNone : String → Option Node := fun _ => none

/-- A discovered article link whose article fetch will fail. -/
def link4 : Node :=
  .elem 300 "a" [("class", "__tips_idx_click"), ("href", "/klinik/a/gone")] []

/-- A listing page whose link container is present but empty, with a valid
next-page control. -/
def listing5a : Node :=
  .elem 600 "[document]" [] [
    .elem 601 "div" [("class", "css-m2i9m0")] [],
    .elem 602 "ul" [("class", "css-1gd80ut")] [
      .elem 603 "a" [("rel", "next"), ("class", "__pagination_next_click"),
        ("href", "/klinik/tips/page/2")] []]]

/-- A listing page with no link container and no links at all. -/
def listing5b : Node := .elem 610 "[document]" [] []

def fetch5 : String → Option Node := fun u =>
  if u = start_url then some listing5a
  else if u = base_url ++ "/klinik/tips/page/2" then some listing5b
  else none

def fetch5b : String → Option Node := fun u =>
  if u = start_url then some listing5b else none

/-- A listing page with one article link and a pagination control whose href
does not have the `/klinik/tips/page/` shape. -/
def listing8 : Node :=
  .elem 700 "[document]" [] [
    .elem 701 "div" [("class", "css-m2i9m0")] [
      .elem 702 "a" [("class", "__tips_idx_click"), ("href", "/klinik/a/y1")] []],
    .elem 703 "ul" [("class", "css-1gd80ut")] [
      .elem 704 "a" [("rel", "next"), ("class", "__pagination_next_click"),
        ("href", "/other/path")] []]]

def fetch8 : String → Option Node := fun u =>
  if u = start_url then some listing8 else none

def SUMTXT : String := "Ringkasan jawaban singkat atas pertanyaan hukum."

/-- An article document with a recoverable summary (`css-uf51zq` section with
a nested article and `c816ma` leaf) and no recoverable body. -/
def c7doc : Node :=
  .elem 300 "[document]" [] [
    .elem 301 "div" [("id", "content"), ("class", "css-z")] [
      .elem 302 "div" [("class", "css-uf51zq")] [
        .elem 303 "article" [("class", "css-art")] [
          .elem 304 "div" [("class", "css-c816ma")] [.text 305 SUMTXT]]]]]

def c7ca : Node :=
  .elem 301 "div" [("id", "content"), ("class", "css-z")] [
    .elem 302 "div" [("class", "css-uf51zq")] [
      .elem 303 "article" [("class", "css-art")] [
        .elem 304 "div" [("class", "css-c816ma")] [.text 305 SUMTXT]]]]

def DEF100 : String := String.mk (List.replicate 100 'D')

/-- An article document on which extraction is not idempotent: the question
text equals `"ABC" ++ DEF100`; the only substantial content div holds the
text nodes `"ABC"` and `DEF100` separated by a script element, so on the
first run its raw text does not contain the question and the div is kept,
while on the second run (script decomposed by the first) it does and the div
is skipped. -/
def c9doc : Node :=
  .elem 400 "[document]" [] [
    .elem 401 "div" [("id", "content"), ("class", "css-x")] [
      .elem 402 "div" [("class", "css-aq")] [
        .elem 403 "div" [("class", "css-bq")] [.text 404 ("ABC" ++ DEF100)]],
      .elem 405 "div" [("class", "css-d")] [
        .text 406 "ABC",
        .elem 407 "script" [] [.text 408 "Z"],
        .text 409 DEF100]]]

/-- An article document whose body leaf contains a script element. -/
def c10doc : Node :=
  .elem 500 "[document]" [] [
    .elem 501 "div" [("id", "content"), ("class", "css-w")] [
      .elem 502 "div" [("class", "css-103zlhi")] [
        .elem 503 "div" [("class", "css-c816ma")] [
          .text 504 LONG60,
          .elem 505 "script" [] [.text 506 "var x = 1;"]]]]]

/-! ## Helper lemmas -/

mutual
theorem stripNoise_of_noNoise : ∀ n : Node, noNoise n = true → stripNoise n = n
  | .text _ _, _ => rfl
  | .elem i t a cs, h => by
    have h2 : noNoiseList cs = true := by
      simp only [noNoise, Bool.and_eq_true] at h
      exact h.2
    show Node.elem i t a (stripNoiseList cs) = Node.elem i t a cs
    rw [stripNoiseList_of_noNoise cs h2]
theorem stripNoiseList_of_noNoise : ∀ l : List Node, noNoiseList l = true → stripNoiseList l = l
  | [], _ => rfl
  | c :: rest, h => by
    have h1 : noNoise c = true ∧ noNoiseList rest = true := by
      simp only [noNoiseList, Bool.and_eq_true] at h
      exact h
    have hn : isNoise c = false := by
      cases c with
      | text i s => rfl
      | elem i t a cs =>
        have := h1.1
        simp only [noNoise, Bool.and_eq_true, Bool.not_eq_true'] at this
        simp only [isNoise]
        exact this.1
    show (if isNoise c then stripNoiseList rest else stripNoise c :: stripNoiseList rest) = c :: rest
    rw [hn]
    simp only [Bool.false_eq_true, if_false]
    rw [stripNoise_of_noNoise c h1.1, stripNoiseList_of_noNoise rest h1.2]
end

mutual
theorem stripNoiseAt_of_noNoise : ∀ (k : Nat) (n : Node), noNoise n = true → stripNoiseAt k n = n
  | _, .text _ _, _ => rfl
  | k, .elem i t a cs, h => by
    have hcs : noNoiseList cs = true := by
      simp only [noNoise, Bool.and_eq_true] at h
      exact h.2
    show (if i = k then Node.elem i t a (stripNoiseList cs)
          else Node.elem i t a (stripNoiseAtList k cs)) = Node.elem i t a cs
    by_cases hk : i = k
    · rw [if_pos hk, stripNoiseList_of_noNoise cs hcs]
    · rw [if_neg hk, stripNoiseAtList_of_noNoise k cs hcs]
theorem stripNoiseAtList_of_noNoise : ∀ (k : Nat) (l : List Node), noNoiseList l = true →
    stripNoiseAtList k l = l
  | _, [], _ => rfl
  | k, c :: rest, h => by
    have h1 : noNoise c = true ∧ noNoiseList rest = true := by
      simp only [noNoiseList, Bool.and_eq_true] at h
      exact h
    show stripNoiseAt k c :: stripNoiseAtList k rest = c :: rest
    rw [stripNoiseAt_of_noNoise k c h1.1, stripNoiseAtList_of_noNoise k rest h1.2]
end

theorem foldl_stripNoiseAt_of_noNoise (l : List Node) (doc : Node) (h : noNoise doc = true) :
    l.foldl (fun dc d => stripNoiseAt (nidOf d) dc) doc = doc := by
  induction l with
  | nil => rfl
  | cons d rest ih =>
    simp only [List.foldl_cons]
    rw [stripNoiseAt_of_noNoise (nidOf d) doc h]
    exact ih

theorem lastResortLoop_doc_of_noNoise (q s : Option String) (ids : List Nat) :
    ∀ (doc : Node) (acc : List String), noNoise doc = true →
      (lastResortLoop q s ids doc acc).1 = doc := by
  induction ids with
  | nil => intro doc acc _; rfl
  | cons k ks ih =>
    intro doc acc h
    unfold lastResortLoop
    cases subtreeById k doc with
    | none => exact ih doc acc h
    | some cur =>
      simp only
      split
      · exact ih doc acc h
      · split
        · exact ih doc acc h
        · rw [stripNoiseAt_of_noNoise k doc h]
          exact ih doc _ h

theorem bodyPhase_doc_of_noNoise (soup ca : Node) (h : noNoise soup = true) :
    (bodyPhase soup ca).2 = soup := by
  cases hs : ulasanSection soup ca with
  | none => simp [bodyPhase, hs]
  | some sec =>
    simp only [bodyPhase, hs]
    rw [foldl_stripNoiseAt_of_noNoise _ _ h, stripNoiseAt_of_noNoise _ _ h]
    simp [apply_ite Prod.snd]

theorem lastResort_doc_of_noNoise (q s b : Option String) (doc : Node) (caNid : Nat)
    (h : noNoise doc = true) : (lastResort q s b doc caNid).2 = doc := by
  cases hm : lastResortMainDiv doc with
  | some d =>
    simp only [lastResort, hm]
    exact stripNoiseAt_of_noNoise _ _ h
  | none =>
    simp only [lastResort, hm]
    cases subtreeById caNid doc with
    | none => rfl
    | some ca =>
      simp only
      rw [lastResortLoop_doc_of_noNoise _ _ _ _ _ h]
      split <;> rfl

theorem extract_doc_of_noNoise (soup : Node) (h : noNoise soup = true) :
    (extract_article_content soup).2 = soup := by
  cases hca : findContentArea soup with
  | none => simp [extract_article_content, hca]
  | some ca =>
    simp only [extract_article_content, hca]
    rw [bodyPhase_doc_of_noNoise soup ca h]
    rw [lastResort_doc_of_noNoise _ _ _ _ _ h]
    split <;> rfl

theorem processLinks_records (fetch : String → Option Node) :
    ∀ (links : List Node) (acc : List ArticleRecord),
      (processLinks fetch links acc).1 = acc ++ links.filterMap (linkRecord fetch) := by
  intro links
  induction links with
  | nil => intro acc; simp [processLinks]
  | cons link rest ih =>
    intro acc
    simp only [processLinks, List.filterMap_cons, linkRecord]
    cases hh : getAttr link "href" with
    | none => simp [ih]
    | some h =>
      by_cases he : h = ""
      · simp [he, ih]
      · simp only [he, if_neg, if_false]
        cases hf : fetch (base_url ++ h) with
        | none => simp [he, ih]
        | some doc =>
          simp only [he, if_false]
          split
          · simp [ih]
          · simp [ih]

theorem crawlLoop_none (fetch : String → Option Node) (maxPages : Option Nat) :
    ∀ (fuel pageCount : Nat) (acc : List ArticleRecord),
      crawlLoop fetch maxPages fuel none pageCount acc = (acc, []) := by
  intro fuel pageCount acc
  cases fuel <;> rfl

theorem crawl_records (fetch : String → Option Node) (maxPages : Option Nat) :
    ∀ (fuel : Nat) (cu : Option String) (pageCount : Nat) (acc : List ArticleRecord),
      (crawlLoop fetch maxPages fuel cu pageCount acc).1 =
        acc ++ specRecords fetch maxPages fuel cu pageCount := by
  intro fuel
  induction fuel with
  | zero =>
    intro cu pageCount acc
    cases cu <;> simp [crawlLoop, specRecords]
  | succ f ih =>
    intro cu pageCount acc
    cases cu with
    | none => simp [crawlLoop, specRecords]
    | some u =>
      simp only [crawlLoop, specRecords]
      by_cases hc : pageCond maxPages pageCount
      · simp only [hc, if_true]
        cases hf : fetch u with
        | none => simp
        | some soup =>
          cases hd : discoverLinks soup with
          | none => simp [hd]
          | some links =>
            simp only [hd]
            rw [ih, processLinks_records, List.append_assoc]
      · simp [hc]

theorem linkRecord_konten (fetch : String → Option Node) (link : Node) (r : ArticleRecord)
    (h : linkRecord fetch link = some r) : r.konten ≠ "" := by
  unfold linkRecord at h
  cases hh : getAttr link "href" with
  | none => rw [hh] at h; exact absurd h (by simp)
  | some s =>
    rw [hh] at h
    by_cases he : s = ""
    · simp [he] at h
    · simp only [he, if_false] at h
      cases hf : fetch (base_url ++ s) with
      | none => rw [hf] at h; exact absurd h (by simp)
      | some doc =>
        rw [hf] at h
        simp only at h
        split at h
        · cases h
          next ht =>
            cases hb : ((extract_article_content doc).1).2.2 with
            | none => rw [hb] at ht; exact absurd ht (by simp [tstr])
            | some b =>
              rw [hb] at ht
              simp only [tstr, bne_iff_ne, ne_eq] at ht
              simpa [hb] using ht
        · cases h

theorem specRecords_konten (fetch : String → Option Node) (maxPages : Option Nat) :
    ∀ (fuel : Nat) (cu : Option String) (pageCount : Nat) (r : ArticleRecord),
      r ∈ specRecords fetch maxPages fuel cu pageCount → r.konten ≠ "" := by
  intro fuel
  induction fuel with
  | zero =>
    intro cu pageCount r hr
    cases cu <;> simp [specRecords] at hr
  | succ f ih =>
    intro cu pageCount r hr
    cases cu with
    | none => simp [specRecords] at hr
    | some u =>
      simp only [specRecords] at hr
      by_cases hc : pageCond maxPages pageCount
      · rw [if_pos hc] at hr
        split at hr
        · simp at hr
        · split at hr
          · simp at hr
          · simp only [List.mem_append] at hr
            cases hr with
            | inl hl =>
              obtain ⟨link, _, hlr⟩ := List.mem_filterMap.mp hl
              exact linkRecord_konten fetch link r hlr
            | inr hrr => exact ih _ _ r hrr
      · rw [if_neg hc] at hr; simp at hr

/-! ## The claims -/

/-- Claim C1: for every run of the crawl (any fetch environment, any
`max_pages`, any fuel), every record in the final output sequence has a
non-empty `konten` field; an extraction result with falsy body is discarded
and never appears in the output. -/
theorem C1_output_records_have_nonempty_body :
    ∀ (fetch : String → Option Node) (maxPages : Option Nat) (fuel : Nat) (r : ArticleRecord),
      r ∈ (scrape_hukumonline_tips fetch maxPages fuel).1 → r.konten ≠ "" := by
  intro fetch maxPages fuel r hr
  unfold scrape_hukumonline_tips at hr
  rw [crawl_records] at hr
  simp only [List.nil_append] at hr
  exact specRecords_konten fetch maxPages fuel (some start_url) 0 r hr

/-- Witness for C1 at a concrete two-document environment. -/
theorem C1_witness :
    rec1 ∈ (scrape_hukumonline_tips fetch1 (some 5) 5).1 ∧ rec1.konten ≠ "" :=
  ⟨by decide, C1_output_records_have_nonempty_body fetch1 (some 5) 5 rec1 (by decide)⟩

/-- Claim C2, corrected: `extract_article_content` never raises past its
boundary (in the model it is a total function for every error point), but an
internal error does not always yield `(null, null, null)`: the `except`
handler returns the fields already assigned when the error was raised.  The
all-`null` result is guaranteed only for an error raised before any field was
extracted, and the question field of a later error run agrees with the
question of the full run. -/
theorem C2_error_yields_partial_fields :
    ∀ (soup : Node) (p : ErrPoint),
      extract_article_content_err soup ErrPoint.atRoot = (none, none, none) ∧
        ((extract_article_content_err soup p).1 = none ∨
          (extract_article_content_err soup p).1 = ((extract_article_content soup).1).1) := by
  intro soup p
  constructor
  · cases hca : findContentArea soup <;> simp [extract_article_content_err, hca]
  · cases hca : findContentArea soup with
    | none =>
      left
      simp [extract_article_content_err, hca]
    | some ca =>
      cases p with
      | atRoot => left; simp [extract_article_content_err, hca]
      | afterQuestion =>
        right
        simp only [extract_article_content_err, extract_article_content, hca]
        split <;> rfl
      | afterSummary =>
        right
        simp only [extract_article_content_err, extract_article_content, hca]
        split <;> rfl
      | afterBody =>
        right
        simp only [extract_article_content_err, extract_article_content, hca]
        split <;> rfl

/-- Counterexample to C2 as stated: on `article1` an internal error raised
after the question extraction returns a triple with a non-null question, not
`(null, null, null)`. -/
theorem C2_counterexample :
    extract_article_content_err article1 ErrPoint.afterQuestion ≠
      ((none, none, none) : Option String × Option String × Option String) := by
  decide

/-- Claim C3: when a listing-page fetch fails while the loop guard holds, the
entire crawl ends at once: the result is exactly the records accumulated so
far, and the only URL requested from that state on is the failed listing URL
itself — no article and no further listing fetch happens. -/
theorem C3_listing_fetch_failure_ends_crawl :
    ∀ (fetch : String → Option Node) (maxPages : Option Nat) (fuel : Nat) (u : String)
      (pageCount : Nat) (acc : List ArticleRecord),
      pageCond maxPages pageCount = true → fetch u = none →
      crawlLoop fetch maxPages (fuel + 1) (some u) pageCount acc = (acc, [u]) := by
  intro fetch maxPages fuel u pageCount acc hc hf
  simp [crawlLoop, hc, hf]

/-- Witness for C3 on the environment where every fetch fails. -/
theorem C3_witness :
    pageCond (some 5) 0 = true ∧ fetchNone start_url = none ∧
      crawlLoop fetchNone (some 5) 5 (some start_url) 0 [] = ([], [start_url]) :=
  ⟨by decide, rfl,
    C3_listing_fetch_failure_ends_crawl fetchNone (some 5) 4 start_url 0 [] (by decide) rfl⟩

/-- Claim C4: a failed fetch of one discovered article is isolated: the link
contributes no record, the accumulated records pass through unchanged, and the
per-page loop continues with the remaining links. -/
theorem C4_article_failure_isolated :
    ∀ (fetch : String → Option Node) (link : Node) (rest : List Node)
      (acc : List ArticleRecord) (h : String),
      getAttr link "href" = some h → h ≠ "" → fetch (base_url ++ h) = none →
      processLinks fetch (link :: rest) acc =
        ((processLinks fetch rest acc).1, (base_url ++ h) :: (processLinks fetch rest acc).2) := by
  intro fetch link rest acc h hh hne hf
  simp [processLinks, hh, hne, hf]

/-- Witness for C4 on a link whose article fetch fails. -/
theorem C4_witness :
    getAttr link4 "href" = some "/klinik/a/gone" ∧
      fetchNone (base_url ++ "/klinik/a/gone") = none ∧
      processLinks fetchNone [link4] [] = ([], [base_url ++ "/klinik/a/gone"]) :=
  ⟨rfl, rfl,
    C4_article_failure_isolated fetchNone link4 [] [] "/klinik/a/gone" rfl (by decide) rfl⟩

/-- Counterexample to C5 as stated: on `listing5a` link discovery yields zero
article links in total (the container is present but empty), yet the crawl
does not stop — the trace shows a second listing fetch for page 2. -/
theorem C5_counterexample :
    discoverLinks listing5a = some [] ∧
      (crawlLoop fetch5 (some 5) 5 (some start_url) 0 []).2 =
        [start_url, base_url ++ "/klinik/tips/page/2"] :=
  ⟨rfl, rfl⟩

/-- Claim C5, corrected: the crawl stops with the accumulated records exactly
when the expected link container is missing and the whole-page fallback also
finds zero links (`discoverLinks` is `none`); a present-but-empty container
contributes no records but lets the crawl proceed to pagination. -/
theorem C5_no_links_and_no_container_stops :
    ∀ (fetch : String → Option Node) (maxPages : Option Nat) (fuel : Nat) (u : String)
      (pageCount : Nat) (acc : List ArticleRecord) (soup : Node),
      pageCond maxPages pageCount = true → fetch u = some soup →
      discoverLinks soup = none →
      crawlLoop fetch maxPages (fuel + 1) (some u) pageCount acc = (acc, [u]) := by
  intro fetch maxPages fuel u pageCount acc soup hc hf hd
  simp [crawlLoop, hc, hf, hd]

/-- Witness for the corrected C5 on a container-less, link-less page. -/
theorem C5_witness :
    fetch5b start_url = some listing5b ∧ discoverLinks listing5b = none ∧
      crawlLoop fetch5b (some 5) 5 (some start_url) 0 [] = ([], [start_url]) :=
  ⟨rfl, rfl,
    C5_no_links_and_no_container_stops fetch5b (some 5) 4 start_url 0 [] listing5b
      (by decide) rfl rfl⟩

/-- Claim C6: the records returned by the crawl appear in exactly discovery
order — listing pages in pagination order and, within each listing page, the
discovered links in document order, each contributing its record when kept
(`specRecords` is the literal transcription of that ordering). -/
theorem C6_records_in_discovery_order :
    ∀ (fetch : String → Option Node) (maxPages : Option Nat) (fuel : Nat)
      (cu : Option String) (pageCount : Nat) (acc : List ArticleRecord),
      (crawlLoop fetch maxPages fuel cu pageCount acc).1 =
        acc ++ specRecords fetch maxPages fuel cu pageCount :=
  fun fetch maxPages fuel cu pageCount acc =>
    crawl_records fetch maxPages fuel cu pageCount acc

/-- Claim C7: when extraction recovers a truthy summary and the body phase
recovers nothing truthy, the returned body is the fixed prefix label
concatenated with the summary — hence non-empty. -/
theorem C7_summary_backfills_body :
    ∀ (soup ca : Node) (s : String),
      findContentArea soup = some ca →
      summaryPhase soup ca = some s → s ≠ "" →
      tstr (bodyPhase soup ca).1 = false →
      (extract_article_content soup).1 =
        (questionPhase ca, some s, some ("INTISARI JAWABAN: " ++ s)) := by
  intro soup ca s hca hs hne hb
  have hts : tstr (some s) = true := by
    simp [tstr, hne]
  have hbf : backfill (summaryPhase soup ca) (bodyPhase soup ca).1 =
      (some s, some ("INTISARI JAWABAN: " ++ s)) := by
    rw [hs]
    unfold backfill
    rw [hts, hb]
    simp
  have hne2 : ("INTISARI JAWABAN: " ++ s) ≠ "" := by
    intro h
    have h2 : ("INTISARI JAWABAN: " ++ s).length = 0 := by rw [h]; rfl
    rw [String.length_append] at h2
    simp at h2
    exact absurd h2.1 (by decide)
  simp only [extract_article_content, hca, hbf]
  simp [tstr, hne2]

/-- Witness for C7 on a document with a summary and no body. -/
theorem C7_witness :
    findContentArea c7doc = some c7ca ∧ summaryPhase c7doc c7ca = some SUMTXT ∧
      SUMTXT ≠ "" ∧ tstr (bodyPhase c7doc c7ca).1 = false ∧
      (extract_article_content c7doc).1 =
        (questionPhase c7ca, some SUMTXT, some ("INTISARI JAWABAN: " ++ SUMTXT)) :=
  ⟨rfl, rfl, by decide, rfl,
    C7_summary_backfills_body c7doc c7ca SUMTXT rfl rfl (by decide) rfl⟩

/-- Claim C8: on a successfully fetched listing page with discovered links but
no well-formed next-page control, the crawl fully processes that page (its
links in order) and then stops: the records are those accumulated plus the
page's, and no further listing URL is fetched. -/
theorem C8_malformed_next_stops_after_page :
    ∀ (fetch : String → Option Node) (maxPages : Option Nat) (fuel : Nat) (u : String)
      (pageCount : Nat) (acc : List ArticleRecord) (soup : Node) (links : List Node),
      pageCond maxPages pageCount = true → fetch u = some soup →
      discoverLinks soup = some links → findNext soup = none →
      crawlLoop fetch maxPages (fuel + 1) (some u) pageCount acc =
        ((processLinks fetch links acc).1, u :: (processLinks fetch links acc).2) := by
  intro fetch maxPages fuel u pageCount acc soup links hc hf hd hn
  simp only [crawlLoop, hc, if_true, hf, hd, hn]
  rw [crawlLoop_none]
  simp

/-- Witness for C8 on a page whose next control href is `/other/path`. -/
theorem C8_witness :
    findNext listing8 = none ∧
      crawlLoop fetch8 (some 5) 5 (some start_url) 0 [] =
        ([], [start_url, base_url ++ "/klinik/a/y1"]) :=
  ⟨rfl,
    (C8_malformed_next_stops_after_page fetch8 (some 5) 4 start_url 0 [] listing8
      [Node.elem 702 "a" [("class", "__tips_idx_click"), ("href", "/klinik/a/y1")] []]
      (by decide) rfl rfl rfl).trans rfl⟩

/-- Counterexample to C9 as stated: extracting `c9doc` a second time (the
document object having been mutated by the first extraction) yields a
different triple — the first run recovers a body, the second does not. -/
theorem C9_counterexample :
    (extract_article_content (extract_article_content c9doc).2).1 ≠
      (extract_article_content c9doc).1 := by
  decide

/-- Claim C9, corrected: extraction is idempotent on documents that contain no
script/style/iframe element — on such documents the extraction mutates
nothing, so a repeated extraction returns the identical triple; on documents
with such elements the first run's in-place mutation can change the second
run's result. -/
theorem C9_idempotent_without_noise :
    ∀ soup : Node, noNoise soup = true →
      (extract_article_content (extract_article_content soup).2).1 =
        (extract_article_content soup).1 := by
  intro soup h
  rw [extract_doc_of_noNoise soup h]

/-- Witness for the corrected C9 on the noise-free document `c7doc`. -/
theorem C9_witness :
    noNoise c7doc = true ∧
      (extract_article_content (extract_article_content c7doc).2).1 =
        (extract_article_content c7doc).1 :=
  ⟨by decide, C9_idempotent_without_noise c7doc (by decide)⟩

/-- Claim C10: `extract_article_content` is not free of side effects on its
input: on `c10doc` (whose body leaf contains a script element) the document
returned after extraction differs from the document passed in — the script
has been removed in place. -/
theorem C10_extraction_mutates_document :
    (extract_article_content c10doc).2 ≠ c10doc := by
  intro h
  exact absurd (congrArg textStrings h) (by decide)

end Scraper
